import Mathlib

/-!
# Verification of the Fornjot object store and validation engine

Shallow embedding of the core data structures and operations of the
repository: identity-based storage handles, the event-sourced validation
layer, the multiple-reference validation checks, the geometry lookup,
sketch update operations, and the polygon neighbor query. Machine
pointers are modelled as natural-number cell identities; Rust panics are
modelled as `Except.error`.
-/

namespace Fj

/-! ## Storage / Handle (src/src/kernel/shape/handle.rs)

A `Storage<T>` wraps an `Arc<T>`; cloning an `Arc` shares the allocation,
so the pointer (modelled as the `cellId`) is preserved. `PartialEq` is
`Arc::ptr_eq`, `Hash` hashes the pointer. A fresh storage cell
(`Storage::new`) allocates a new `Arc`, hence a fresh pointer.
-/

/-- `Storage<T>`: one immutable stored instance of `T`, identified by the
address of its `Arc` allocation (`cellId`). -/
structure Storage (T : Type) where
  cellId : Nat
  value : T
deriving Repr, DecidableEq

/-- `Storage::new`: wraps a value in a fresh allocation. The caller supplies
the fresh address; freshness (distinctness from all existing cells) is a
hypothesis of the theorems that need it. -/
def Storage.new (freshId : Nat) (value : T) : Storage T :=
  { cellId := freshId, value := value }

/-- `Clone for Storage<T>`: `Arc::clone` shares the allocation. -/
def Storage.clone (s : Storage T) : Storage T :=
  { cellId := s.cellId, value := s.value }

/-- `PartialEq for Storage<T>`: `Arc::ptr_eq`, i.e. address equality. -/
def Storage.ptrEq (a b : Storage T) : Bool :=
  a.cellId == b.cellId

/-- `Hash for Storage<T>`: hashes the pointer only. -/
def Storage.hashVal (s : Storage T) : Nat :=
  s.cellId

/-- `Handle<T>`: a reference to a storage cell. -/
structure Handle (T : Type) where
  storage : Storage T
deriving Repr, DecidableEq

/-- `Handle::get`: the stored value (always succeeds). -/
def Handle.get (h : Handle T) : T :=
  h.storage.value

/-- Derived `Clone for Handle<T>` (clones the storage field). -/
def Handle.clone (h : Handle T) : Handle T :=
  { storage := h.storage.clone }

/-- Derived `PartialEq for Handle<T>` (compares the storage field). -/
def Handle.ptrEq (a b : Handle T) : Bool :=
  a.storage.ptrEq b.storage

/-- Derived `Hash for Handle<T>` (hashes the storage field). -/
def Handle.hashVal (h : Handle T) : Nat :=
  h.storage.hashVal

/-- `Storage::handle`: a handle referring to this cell. -/
def Handle.ofStorage (s : Storage T) : Handle T :=
  { storage := s.clone }

/-- Derived `Ord for Storage<T>` (from `#[derive(Eq, Ord, PartialOrd)]` on
`Storage<T>(Arc<T>)`): delegates to `Arc<T>`'s `Ord`, which compares the
pointed-to values — so ordering is value-based, unlike the manual
pointer-based `PartialEq` and `Hash`. -/
def Storage.cmp [Ord T] (a b : Storage T) : Ordering :=
  compare a.value b.value

/-- Derived `Ord for Handle<T>` (compares the storage field). -/
def Handle.cmp [Ord T] (a b : Handle T) : Ordering :=
  a.storage.cmp b.storage

/-! ## Validation layer (src/crates/fj-core/src/layers/validation.rs)

Objects are modelled by their identity (`AnyObject.id`, the `ObjectId`
returned by `AnyObject::id()`); validation errors by an opaque code.
The validation state `Validation` holds `errors`, a map from object id to
the most recently recorded error, modelled as an association list with
`BTreeMap::insert` replace semantics. `Layer::process` itself is not under
`src/`; following the spec, it is the pure decide phase followed by
applying the emitted events in emission order. -/

/-- `AnyObject<Stored>`, reduced to its identity. -/
structure AnyObject where
  id : Nat
deriving Repr, DecidableEq

/-- `ValidationFailed` event: carries the validated object and the error
(error modelled as an opaque code). -/
structure ValidationFailed where
  object : AnyObject
  err : Nat
deriving Repr, DecidableEq

/-- Validation layer state: the `errors` map from object id to its most
recently recorded failure. -/
structure Validation where
  errors : List (Nat × Nat)
deriving Repr, DecidableEq

/-- `BTreeMap::insert`: replace the entry for the key if present, otherwise
add one. -/
def mapInsert : List (Nat × α) → Nat → α → List (Nat × α)
  | [], k, v => [(k, v)]
  | (k', v') :: rest, k, v =>
    if k' = k then (k, v) :: rest else (k', v') :: mapInsert rest k v

/-- `Command<Validation> for ValidateObject::decide`: runs the object's
validate routine (its produced error list is the `producedErrors`
parameter, since validation dispatch is external to this layer) and pushes
one `ValidationFailed` event per error. The result type is `Unit`: the
command itself always succeeds. -/
def ValidateObject.decide (object : AnyObject) (producedErrors : List Nat) :
    Unit × List ValidationFailed :=
  ((), producedErrors.foldl (fun events err => events ++ [⟨object, err⟩]) [])

/-- `Event<Validation> for ValidationFailed::evolve`: records the error
under the object's id, replacing any previous entry for that id. -/
def ValidationFailed.evolve (e : ValidationFailed) (s : Validation) :
    Validation :=
  ⟨mapInsert s.errors e.object.id e.err⟩

/-- `Command<Validation> for TakeErrors::decide`: snapshots the recorded
failures (`state.errors.values()`), pushes the single `TakeErrors` event
(modelled as `Unit`), and returns success iff the snapshot is empty,
otherwise the aggregate `ValidationErrors`. -/
def TakeErrors.decide (s : Validation) :
    (Except (List Nat) Unit) × List Unit :=
  let errors := s.errors.map (fun kv => kv.2)
  (if errors.isEmpty then Except.ok () else Except.error errors, [()])

/-- `Event<Validation> for TakeErrors::evolve`: clears all recorded
failures. -/
def TakeErrors.evolve (_ : Validation) : Validation :=
  ⟨[]⟩

/-- Modelled from the spec: `Layer::process` (absent from src/) runs the
pure decide phase on the current state, then applies the emitted events in
emission order. Instantiated for `ValidateObject`. -/
def processValidateObject (s : Validation) (object : AnyObject)
    (producedErrors : List Nat) : Unit × Validation :=
  let (result, events) := ValidateObject.decide object producedErrors
  (result, events.foldl (fun st e => e.evolve st) s)

/-- Modelled from the spec: `Layer::process` (absent from src/) runs the
pure decide phase on the current state, then applies the emitted events in
emission order. Instantiated for `TakeErrors`. -/
def processTakeErrors (s : Validation) :
    (Except (List Nat) Unit) × Validation :=
  let (result, events) := TakeErrors.decide s
  (result, events.foldl (fun st _ => TakeErrors.evolve st) s)

/-! ## Multiple-reference checks
(src/crates/fj-core/src/validation/checks/multiple_references.rs)

Handles are modelled by their identities (`Nat`). The topological types
`Cycle`, `Region`, `Sketch`, `Face`, `Shell`, `Solid` are not under
`src/`; they are modelled from the spec's object-graph description: a
region has an exterior cycle and interior cycles, a sketch has regions, a
face has a region, a shell has faces, a solid has shells. -/

/-- `MultipleReferencesToObject<T, U>`: a violation record carrying the
multiply-referenced child and the list of referencing parents. -/
structure MultipleReferencesToObject (T U : Type) where
  object : T
  referenced_by : List U
deriving Repr, DecidableEq

/-- `ReferenceCounter<T, U>`: a map from child to the list of referencing
parents. The source's `HashMap` (unspecified iteration order) is modelled
as an association list in first-seen key order; no verified property
depends on the key order. -/
abbrev ReferenceCounter (T U : Type) : Type :=
  List (T × List U)

/-- `ReferenceCounter::new`. -/
def ReferenceCounter.new : ReferenceCounter T U :=
  []

/-- `ReferenceCounter::count`: `self.0.entry(to).or_default().push(from)`;
the parameter `to` of the source is named `child` here. -/
def ReferenceCounter.count [DecidableEq T] :
    ReferenceCounter T U → T → U → ReferenceCounter T U
  | [], child, parent => [(child, [parent])]
  | (t, l) :: rest, child, parent =>
    if t = child then (t, l ++ [parent]) :: rest
    else (t, l) :: ReferenceCounter.count rest child parent

/-- `ReferenceCounter::multiples`: one violation record per entry whose
parent list has more than one element. -/
def ReferenceCounter.multiples (rc : ReferenceCounter T U) :
    List (MultipleReferencesToObject T U) :=
  (rc.filter (fun p => p.2.length > 1)).map (fun p => ⟨p.1, p.2⟩)

/-- Modelled from the spec: a topological cycle (type absent from src/),
reduced to its handle identity and the handle identities of its half-edges
(`Cycle::half_edges`). -/
structure Cycle where
  id : Nat
  half_edges : List Nat
deriving Repr, DecidableEq

/-- Modelled from the spec: a topological region (type absent from src/):
an exterior cycle and interior cycles. -/
structure Region where
  id : Nat
  exterior : Cycle
  interiors : List Cycle
deriving Repr, DecidableEq

/-- Modelled from the spec: `Region::all_cycles` enumerates the exterior
cycle followed by the interior cycles. -/
def Region.all_cycles (r : Region) : List Cycle :=
  r.exterior :: r.interiors

/-- Modelled from the spec: a sketch (type absent from src/) holds its
regions. -/
structure Sketch where
  regions : List Region
deriving Repr, DecidableEq

/-- Modelled from the spec: a face (type absent from src/), reduced to its
handle identity and its region (`Face::region`). -/
structure Face where
  id : Nat
  region : Region
deriving Repr, DecidableEq

/-- Modelled from the spec: a shell (type absent from src/) holds its
faces. -/
structure Shell where
  id : Nat
  faces : List Face
deriving Repr, DecidableEq

/-- Modelled from the spec: a solid (type absent from src/) holds its
shells. -/
structure Solid where
  shells : List Shell
deriving Repr, DecidableEq

/-- `ValidationCheck<Sketch> for MultipleReferencesToObject<Cycle,
Region>::check`: count every cycle of every region, then report the
multiples. -/
def checkSketchCycles (s : Sketch) :
    List (MultipleReferencesToObject Nat Nat) :=
  (s.regions.foldl
      (fun cycles region =>
        region.all_cycles.foldl
          (fun cycles cycle => cycles.count cycle.id region.id) cycles)
      ReferenceCounter.new).multiples

/-- `ValidationCheck<Sketch> for MultipleReferencesToObject<HalfEdge,
Cycle>::check`. -/
def checkSketchHalfEdges (s : Sketch) :
    List (MultipleReferencesToObject Nat Nat) :=
  (s.regions.foldl
      (fun hes region =>
        region.all_cycles.foldl
          (fun hes cycle =>
            cycle.half_edges.foldl
              (fun hes he => hes.count he cycle.id) hes)
          hes)
      ReferenceCounter.new).multiples

/-- `ValidationCheck<Solid> for MultipleReferencesToObject<Region,
Face>::check`. -/
def checkSolidRegions (s : Solid) :
    List (MultipleReferencesToObject Nat Nat) :=
  (s.shells.foldl
      (fun regions shell =>
        shell.faces.foldl
          (fun regions face => regions.count face.region.id face.id)
          regions)
      ReferenceCounter.new).multiples

/-- `ValidationCheck<Solid> for MultipleReferencesToObject<Cycle,
Region>::check`. -/
def checkSolidCycles (s : Solid) :
    List (MultipleReferencesToObject Nat Nat) :=
  (s.shells.foldl
      (fun cycles shell =>
        shell.faces.foldl
          (fun cycles face =>
            face.region.all_cycles.foldl
              (fun cycles cycle => cycles.count cycle.id face.region.id)
              cycles)
          cycles)
      ReferenceCounter.new).multiples

/-- `ValidationCheck<Solid> for MultipleReferencesToObject<HalfEdge,
Cycle>::check`. -/
def checkSolidHalfEdges (s : Solid) :
    List (MultipleReferencesToObject Nat Nat) :=
  (s.shells.foldl
      (fun hes shell =>
        shell.faces.foldl
          (fun hes face =>
            face.region.all_cycles.foldl
              (fun hes cycle =>
                cycle.half_edges.foldl
                  (fun hes he => hes.count he cycle.id) hes)
              hes)
          hes)
      ReferenceCounter.new).multiples

/-- The parent→child reference edges inspected by the Sketch
Cycle-in-Region check, as (child, parent) pairs in traversal order. -/
def sketchCycleRefs (s : Sketch) : List (Nat × Nat) :=
  s.regions.flatMap (fun r => r.all_cycles.map (fun c => (c.id, r.id)))

/-- The reference edges inspected by the Sketch HalfEdge-in-Cycle check. -/
def sketchHalfEdgeRefs (s : Sketch) : List (Nat × Nat) :=
  s.regions.flatMap (fun r =>
    r.all_cycles.flatMap (fun c =>
      c.half_edges.map (fun he => (he, c.id))))

/-- The reference edges inspected by the Solid Region-in-Face check. -/
def solidRegionRefs (s : Solid) : List (Nat × Nat) :=
  s.shells.flatMap (fun shell =>
    shell.faces.map (fun f => (f.region.id, f.id)))

/-- The reference edges inspected by the Solid Cycle-in-Region check. -/
def solidCycleRefs (s : Solid) : List (Nat × Nat) :=
  s.shells.flatMap (fun shell =>
    shell.faces.flatMap (fun f =>
      f.region.all_cycles.map (fun c => (c.id, f.region.id))))

/-- The reference edges inspected by the Solid HalfEdge-in-Cycle check. -/
def solidHalfEdgeRefs (s : Solid) : List (Nat × Nat) :=
  s.shells.flatMap (fun shell =>
    shell.faces.flatMap (fun f =>
      f.region.all_cycles.flatMap (fun c =>
        c.half_edges.map (fun he => (he, c.id)))))

/-- The referencing parents of child `c` among the reference edges `refs`,
in traversal order, with multiplicity. -/
def parentsOf (refs : List (Nat × Nat)) (c : Nat) : List Nat :=
  (refs.filter (fun p => p.1 == c)).map (fun p => p.2)

/-- Counting a whole edge list into a fresh `ReferenceCounter`. -/
def countAll (refs : List (Nat × Nat)) : ReferenceCounter Nat Nat :=
  refs.foldl (fun rc p => rc.count p.1 p.2) ReferenceCounter.new

/-! ## Geometry (src/crates/fj-core/src/geometry/geometry.rs)

Surface, curve and vertex handles are modelled by their identities
(`Nat`); the maps of `Geometry` are association lists with
`BTreeMap::insert` replace semantics. -/

/-- `GlobalPath` (defined outside src/), reduced to the axis paths used by
`Geometry::new`; the numeric payload is irrelevant to the verified
properties. -/
inductive GlobalPath where
  | xAxis
  | yAxis
deriving Repr, DecidableEq

/-- A 3D vector, with exact integer components (the numeric contents are
irrelevant to the verified properties). -/
abbrev Vector3 := Int × Int × Int

/-- `Vector::unit_y`. -/
def unitY : Vector3 := (0, 1, 0)

/-- `Vector::unit_z`. -/
def unitZ : Vector3 := (0, 0, 1)

/-- `SurfaceGeom`: the `u` path and `v` vector of a surface. -/
structure SurfaceGeom where
  u : GlobalPath
  v : Vector3
deriving Repr, DecidableEq

/-- `CurveGeom`: the per-surface local `definitions` of a curve
(`LocalCurveGeom` payload modelled as opaque `Nat`). -/
structure CurveGeom where
  definitions : List (Nat × Nat)
deriving Repr, DecidableEq

/-- `VertexGeom`: the per-curve local `definitions` of a vertex
(`LocalVertexGeom` payload modelled as opaque `Nat`). -/
structure VertexGeom where
  definitions : List (Nat × Nat)
deriving Repr, DecidableEq

/-- The special surface handles provided by `Topology::surfaces`
(`space_2d` and the three basis planes), by identity. -/
structure Topology where
  space_2d : Nat
  xy_plane : Nat
  xz_plane : Nat
  yz_plane : Nat
deriving Repr, DecidableEq

/-- `Geometry`: geometric data associated with topological objects. -/
structure Geometry where
  curve : List (Nat × CurveGeom)
  surface : List (Nat × SurfaceGeom)
  vertex : List (Nat × VertexGeom)
  space_2d : Nat
  xy_plane : Nat
  xz_plane : Nat
  yz_plane : Nat
deriving Repr, DecidableEq

/-- `Geometry::define_surface_inner`: panics (modelled as `Except.error`)
when defining geometry for the 2D-space surface, or when redefining an
already-defined basis plane; otherwise inserts the definition. -/
def Geometry.define_surface_inner (g : Geometry) (surface : Nat)
    (geometry : SurfaceGeom) : Except String Geometry :=
  if surface = g.space_2d then
    Except.error "Attempting to define geometry for 2D space"
  else if (List.lookup surface g.surface).isSome ∧
      (surface = g.xy_plane ∨ surface = g.xz_plane ∨
        surface = g.yz_plane) then
    Except.error "Attempting to redefine basis plane."
  else
    Except.ok { g with surface := mapInsert g.surface surface geometry }

/-- `Geometry::new`: starts with empty maps and the special handles from
the topology, then defines the three basis planes with
`define_surface_inner`; a panic in those calls propagates as
`Except.error` (with distinct special handles they all succeed). -/
def Geometry.new (topology : Topology) : Except String Geometry :=
  let self0 : Geometry :=
    { curve := [], surface := [], vertex := []
      space_2d := topology.space_2d
      xy_plane := topology.xy_plane
      xz_plane := topology.xz_plane
      yz_plane := topology.yz_plane }
  (self0.define_surface_inner self0.xy_plane
      ⟨GlobalPath.xAxis, unitY⟩).bind fun g1 =>
    (g1.define_surface_inner g1.xz_plane
        ⟨GlobalPath.xAxis, unitZ⟩).bind fun g2 =>
      g2.define_surface_inner g2.yz_plane ⟨GlobalPath.yAxis, unitZ⟩

/-- `Geometry::of_curve`: `self.curve.get(curve)`. -/
def Geometry.of_curve (g : Geometry) (curve : Nat) : Option CurveGeom :=
  List.lookup curve g.curve

/-- `Geometry::of_surface`: `self.surface.get(surface).expect(...)` — the
`expect` panic is modelled as `Except.error`. -/
def Geometry.of_surface (g : Geometry) (surface : Nat) :
    Except String SurfaceGeom :=
  match List.lookup surface g.surface with
  | some geom => Except.ok geom
  | none => Except.error "Expected geometry of surface to be defined"

/-- `Geometry::of_vertex`: `self.vertex.get(vertex)`. -/
def Geometry.of_vertex (g : Geometry) (vertex : Nat) : Option VertexGeom :=
  List.lookup vertex g.vertex

/-! ## Sketch update (src/crates/fj-core/src/operations/update/sketch.rs) -/

/-- Modelled from the spec: `Sketch::new` (absent from src/) collects the
given regions, in order, as the new sketch's region list. -/
def Sketch.new (regions : List Region) : Sketch :=
  ⟨regions⟩

/-- `UpdateSketch::add_regions for Sketch`:
`Sketch::new(self.regions().iter().cloned().chain(regions))`. -/
def Sketch.add_regions (s : Sketch) (regions : List Region) : Sketch :=
  Sketch.new (s.regions ++ regions)

/-! ## Polygon (src/fj/src/geometry/shapes/polygon/vertices.rs)

The floating-point coordinates of `Pnt2` are modelled as exact integer
pairs; only identity/equality of points matters to the verified
properties. -/

/-- A 2D point. -/
abbrev Pnt2 := Int × Int

/-- Modelled from the spec: `VertexChain::neighbors_of` (absent from
src/): in a closed vertex chain, the neighbors of vertex `v` are the two
chain-adjacent vertices at its first occurrence; `none` when `v` is not in
the chain. -/
def chainNeighborsOf (chain : List Pnt2) (v : Pnt2) :
    Option (Pnt2 × Pnt2) :=
  match chain.findIdx? (fun p => p == v) with
  | none => none
  | some i =>
    some (chain.getD ((i + chain.length - 1) % chain.length) v,
      chain.getD ((i + 1) % chain.length) v)

/-- Modelled from the spec: a polygon (type absent from src/) holds its
vertex chains. -/
structure Polygon where
  chains : List (List Pnt2)
deriving Repr, DecidableEq

/-- `Vertices::neighbors_of`: asserts that the polygon has exactly one
vertex chain (`assert_eq!(self.0.chains.len(), 1)`, the assertion failure
modelled as `Except.error`); then inserts the chain neighbors of the given
vertex — if any — into a fresh set and returns it. -/
def Polygon.neighbors_of (p : Polygon) (v : Pnt2) :
    Except String (Finset Pnt2) :=
  match p.chains with
  | [chain] =>
    Except.ok
      (match chainNeighborsOf chain v with
        | some pair => insert pair.2 (insert pair.1 (∅ : Finset Pnt2))
        | none => (∅ : Finset Pnt2))
  | _ => Except.error "assertion failed: chains.len() == 1"

end Fj

/-! ## Theorems -/

namespace Fj

theorem handle_clone_eq (h : Handle T) : h.clone = h := by
  cases h with
  | mk s => cases s; rfl

theorem lookup_mapInsert_self (m : List (Nat × α)) (k : Nat) (v : α) :
    List.lookup k (mapInsert m k v) = some v := by
  induction m with
  | nil => simp [mapInsert, List.lookup]
  | cons kv rest ih =>
    obtain ⟨k', v'⟩ := kv
    by_cases h : k' = k
    · subst h
      simp [mapInsert, List.lookup]
    · have hb : (k == k') = false := by simpa using Ne.symm h
      simp [mapInsert, h, List.lookup, hb, ih]

theorem lookup_mapInsert_ne (m : List (Nat × α)) (k k' : Nat) (v : α)
    (h : k' ≠ k) :
    List.lookup k' (mapInsert m k v) = List.lookup k' m := by
  have hb : (k' == k) = false := by simpa using h
  induction m with
  | nil => simp [mapInsert, List.lookup, hb]
  | cons kv rest ih =>
    obtain ⟨k0, v0⟩ := kv
    by_cases h0 : k0 = k
    · subst h0
      simp [mapInsert, List.lookup, hb]
    · simp [mapInsert, h0, List.lookup, ih]

theorem mem_map_snd_iff (l : List (Nat × Nat)) (e : Nat) :
    e ∈ l.map (fun kv => kv.2) ↔ ∃ k, (k, e) ∈ l := by
  constructor
  · intro he
    rcases List.mem_map.mp he with ⟨⟨k, v⟩, hmem, hv⟩
    exact ⟨k, hv ▸ hmem⟩
  · rintro ⟨k, hk⟩
    exact List.mem_map.mpr ⟨(k, e), hk, rfl⟩

theorem foldl_push_eq_map (f : β → α) (l : List β) (init : List α) :
    l.foldl (fun acc b => acc ++ [f b]) init = init ++ l.map f := by
  induction l generalizing init with
  | nil => simp
  | cons b rest ih => simp [ih]

/-- C4: Processing `ValidateObject` returns the unit result (success)
regardless of how many errors the validate routine produces, and emits
exactly one `ValidationFailed` event per produced error, each carrying the
validated object and that error, in order. -/
theorem validateObject_decide_spec (obj : AnyObject) (errs : List Nat) :
    ValidateObject.decide obj errs =
      ((), errs.map (fun err => ⟨obj, err⟩)) := by
  simp [ValidateObject.decide, foldl_push_eq_map]

/-- C1: `TakeErrors` returns success iff no failures are recorded at call
time; otherwise it returns an aggregate error containing exactly the
recorded failures (snapshotted before clearing); in both cases it clears
all recorded failures, so a second `TakeErrors` with no intervening
`ValidateObject` returns success. -/
theorem takeErrors_spec (s : Validation) :
    ((processTakeErrors s).1 = Except.ok () ↔ s.errors = []) ∧
      (∀ es, (processTakeErrors s).1 = Except.error es →
        ∀ e, e ∈ es ↔ ∃ k, (k, e) ∈ s.errors) ∧
      (processTakeErrors s).2.errors = [] ∧
      (processTakeErrors (processTakeErrors s).2).1 = Except.ok () := by
  obtain ⟨errs⟩ := s
  refine ⟨?_, ?_, rfl, rfl⟩
  · cases errs <;> simp [processTakeErrors, TakeErrors.decide]
  · intro es hes e
    have hmap : errs.map (fun kv => kv.2) = es := by
      simp only [processTakeErrors, TakeErrors.decide] at hes
      split at hes
      · cases hes
      · injection hes
    rw [← hmap]
    exact mem_map_snd_iff errs e

/-- Witness for `takeErrors_spec` at a concrete state with one recorded
failure. -/
theorem takeErrors_spec_witness :
    (processTakeErrors ⟨[(1, 10)]⟩).2.errors = [] ∧
      (processTakeErrors (processTakeErrors ⟨[(1, 10)]⟩).2).1 =
        Except.ok () :=
  ⟨(takeErrors_spec ⟨[(1, 10)]⟩).2.2.1, (takeErrors_spec ⟨[(1, 10)]⟩).2.2.2⟩

theorem lookup_isSome_foldl_evolve (events : List ValidationFailed) :
    ∀ (s : Validation) (k : Nat), (List.lookup k s.errors).isSome →
      (List.lookup k
        (events.foldl (fun st e => e.evolve st) s).errors).isSome := by
  induction events with
  | nil => intro s k h; simpa using h
  | cons e rest ih =>
    intro s k h
    simp only [List.foldl_cons]
    apply ih
    by_cases hk : k = e.object.id
    · subst hk
      simp [ValidationFailed.evolve, lookup_mapInsert_self]
    · simpa [ValidationFailed.evolve, lookup_mapInsert_ne _ _ _ _ hk]
        using h

/-- C3: The validation state maps each object id to its most recently
recorded failure: applying a `ValidationFailed` event replaces only that
object's entry; processing `ValidateObject` with no produced errors leaves
the state unchanged; and processing `ValidateObject` never removes an
entry (so of the two commands only `TakeErrors` removes entries). -/
theorem validation_state_spec (s : Validation) (e : ValidationFailed)
    (k : Nat) (obj : AnyObject) (errs : List Nat) :
    List.lookup e.object.id (e.evolve s).errors = some e.err ∧
      (k ≠ e.object.id →
        List.lookup k (e.evolve s).errors = List.lookup k s.errors) ∧
      processValidateObject s obj [] = ((), s) ∧
      ((List.lookup k s.errors).isSome →
        (List.lookup k
          (processValidateObject s obj errs).2.errors).isSome) := by
  refine ⟨?_, ?_, rfl, ?_⟩
  · simp [ValidationFailed.evolve, lookup_mapInsert_self]
  · intro hk
    simp [ValidationFailed.evolve, lookup_mapInsert_ne _ _ _ _ hk]
  · intro h
    exact lookup_isSome_foldl_evolve _ s k h

theorem lookup_count (rc : ReferenceCounter Nat Nat) (child c parent : Nat) :
    List.lookup c (ReferenceCounter.count rc child parent) =
      if c = child then some (((List.lookup c rc).getD []) ++ [parent])
      else List.lookup c rc := by
  induction rc with
  | nil =>
    by_cases h : c = child
    · subst h
      simp [ReferenceCounter.count, List.lookup]
    · have hb : (c == child) = false := by simpa using h
      simp [ReferenceCounter.count, List.lookup, h, hb]
  | cons tl rest ih =>
    obtain ⟨t, l⟩ := tl
    by_cases ht : t = child
    · subst ht
      by_cases hc : c = t
      · subst hc
        simp [ReferenceCounter.count, List.lookup]
      · have hb : (c == t) = false := by simpa using hc
        simp [ReferenceCounter.count, List.lookup, hc, hb]
    · by_cases hc : c = t
      · subst hc
        simp [ReferenceCounter.count, ht, List.lookup]
      · have hb : (c == t) = false := by simpa using hc
        simp [ReferenceCounter.count, ht, List.lookup, hb, ih]

theorem entry_foldl_count (refs : List (Nat × Nat)) :
    ∀ (rc : ReferenceCounter Nat Nat) (c : Nat),
      (List.lookup c
          (refs.foldl (fun rc p => ReferenceCounter.count rc p.1 p.2) rc)).getD [] =
        (List.lookup c rc).getD [] ++ parentsOf refs c := by
  induction refs with
  | nil =>
    intro rc c
    simp [parentsOf]
  | cons p rest ih =>
    intro rc c
    obtain ⟨pc, pp⟩ := p
    simp only [List.foldl_cons]
    rw [ih]
    by_cases h : c = pc
    · subst h
      rw [lookup_count]
      simp [parentsOf, List.filter_cons]
    · have hb : (pc == c) = false := by simpa using Ne.symm h
      rw [lookup_count]
      simp [h, parentsOf, List.filter_cons, hb]

theorem lookup_foldl_count_eq_none (refs : List (Nat × Nat)) :
    ∀ (rc : ReferenceCounter Nat Nat) (c : Nat),
      List.lookup c (refs.foldl (fun rc p => ReferenceCounter.count rc p.1 p.2) rc) = none ↔
        List.lookup c rc = none ∧ parentsOf refs c = [] := by
  induction refs with
  | nil =>
    intro rc c
    simp [parentsOf]
  | cons p rest ih =>
    intro rc c
    obtain ⟨pc, pp⟩ := p
    simp only [List.foldl_cons]
    rw [ih]
    by_cases h : c = pc
    · subst h
      rw [lookup_count]
      simp [parentsOf, List.filter_cons]
    · have hb : (pc == c) = false := by simpa using Ne.symm h
      rw [lookup_count]
      simp [h, parentsOf, List.filter_cons, hb]

theorem lookup_none_iff_not_mem_keys (m : List (Nat × β)) (c : Nat) :
    List.lookup c m = none ↔ c ∉ m.map Prod.fst := by
  induction m with
  | nil => simp [List.lookup]
  | cons kv rest ih =>
    obtain ⟨k, v⟩ := kv
    by_cases h : c = k
    · subst h
      simp [List.lookup]
    · have hb : (c == k) = false := by simpa using h
      simp [List.lookup, hb, ih, h]

theorem count_keys (rc : ReferenceCounter Nat Nat) (child parent : Nat) :
    (ReferenceCounter.count rc child parent).map Prod.fst =
      if (List.lookup child rc).isSome then rc.map Prod.fst
      else rc.map Prod.fst ++ [child] := by
  induction rc with
  | nil => simp [ReferenceCounter.count, List.lookup]
  | cons tl rest ih =>
    obtain ⟨t, l⟩ := tl
    by_cases ht : t = child
    · subst ht
      simp [ReferenceCounter.count, List.lookup]
    · have hb : (child == t) = false := by simpa using Ne.symm ht
      simp only [ReferenceCounter.count, ht, if_false, List.map_cons,
        List.lookup, hb, ih]
      by_cases hs : (List.lookup child rest).isSome <;> simp [hs]

theorem countAll_keys_nodup (refs : List (Nat × Nat)) :
    ((countAll refs).map Prod.fst).Nodup := by
  suffices h : ∀ rc : ReferenceCounter Nat Nat, (rc.map Prod.fst).Nodup →
      ((refs.foldl (fun rc p => ReferenceCounter.count rc p.1 p.2) rc).map Prod.fst).Nodup by
    exact h ReferenceCounter.new (by simp [ReferenceCounter.new])
  induction refs with
  | nil =>
    intro rc h
    simpa using h
  | cons p rest ih =>
    intro rc h
    simp only [List.foldl_cons]
    apply ih
    rw [count_keys]
    by_cases hs : (List.lookup p.1 rc).isSome
    · simpa [hs] using h
    · have hmem : p.1 ∉ rc.map Prod.fst := by
        apply (lookup_none_iff_not_mem_keys rc p.1).mp
        cases hl : List.lookup p.1 rc with
        | none => rfl
        | some l => rw [hl] at hs; simp at hs
      simp [hs, List.nodup_append, h, hmem]

theorem multiples_cons (t : Nat) (l : List Nat)
    (rest : ReferenceCounter Nat Nat) :
    ReferenceCounter.multiples ((t, l) :: rest) =
      if 1 < l.length then ⟨t, l⟩ :: ReferenceCounter.multiples rest else ReferenceCounter.multiples rest := by
  by_cases h : 1 < l.length <;>
    simp [ReferenceCounter.multiples, List.filter_cons, h]

theorem multiples_object_mem_keys (rc : ReferenceCounter Nat Nat)
    (v : MultipleReferencesToObject Nat Nat) (h : v ∈ ReferenceCounter.multiples rc) :
    v.object ∈ rc.map Prod.fst := by
  rcases List.mem_map.mp h with ⟨p, hp, hv⟩
  have hmem := List.mem_of_mem_filter hp
  rw [← hv]
  exact List.mem_map.mpr ⟨p, hmem, rfl⟩

theorem multiples_filter_eq (rc : ReferenceCounter Nat Nat)
    (h : (rc.map Prod.fst).Nodup) (c : Nat) :
    (ReferenceCounter.multiples rc).filter (fun v => v.object == c) =
      if 2 ≤ ((List.lookup c rc).getD []).length
      then [⟨c, (List.lookup c rc).getD []⟩] else [] := by
  induction rc with
  | nil => simp [ReferenceCounter.multiples, List.lookup]
  | cons tl rest ih =>
    obtain ⟨t, l⟩ := tl
    simp only [List.map_cons, List.nodup_cons] at h
    obtain ⟨hk, hrest⟩ := h
    by_cases hc : c = t
    · subst hc
      have hrestnil : (ReferenceCounter.multiples rest).filter (fun v => v.object == c) = [] := by
        apply List.filter_eq_nil_iff.mpr
        intro v hv
        have hobj := multiples_object_mem_keys rest v hv
        simp only [beq_iff_eq]
        intro hvc
        exact hk (hvc ▸ hobj)
      rw [multiples_cons]
      by_cases hlen : 1 < l.length
      · have h2 : 2 ≤ l.length := hlen
        simp [hlen, List.filter_cons, hrestnil, List.lookup, h2]
      · have h2 : ¬2 ≤ l.length := hlen
        simp [hlen, hrestnil, List.lookup, h2]
    · have hbt : (t == c) = false := by simpa using Ne.symm hc
      have hlk : (c == t) = false := by simpa using hc
      rw [multiples_cons]
      by_cases hlen : 1 < l.length
      · simp [hlen, List.filter_cons, hbt, List.lookup, hlk, ih hrest]
      · simp [hlen, List.lookup, hlk, ih hrest]

theorem countAll_multiples_filter (refs : List (Nat × Nat)) (c : Nat) :
    (countAll refs).multiples.filter (fun v => v.object == c) =
      if 2 ≤ (parentsOf refs c).length
      then [⟨c, parentsOf refs c⟩] else [] := by
  rw [multiples_filter_eq _ (countAll_keys_nodup refs) c]
  have hg : (List.lookup c (countAll refs)).getD [] = parentsOf refs c := by
    have h := entry_foldl_count refs ReferenceCounter.new c
    simpa [countAll, ReferenceCounter.new, List.lookup] using h
  rw [hg]

theorem foldl_count_flat (f : α → List (Nat × Nat)) (l : List α) :
    ∀ rc : ReferenceCounter Nat Nat,
      l.foldl (fun rc a => (f a).foldl (fun rc p => ReferenceCounter.count rc p.1 p.2) rc)
          rc =
        (l.flatMap f).foldl (fun rc p => ReferenceCounter.count rc p.1 p.2) rc := by
  induction l with
  | nil =>
    intro rc
    simp
  | cons a rest ih =>
    intro rc
    simp only [List.foldl_cons, List.flatMap_cons, List.foldl_append]
    exact ih _

theorem checkSketchCycles_eq (s : Sketch) :
    checkSketchCycles s = (countAll (sketchCycleRefs s)).multiples := by
  unfold checkSketchCycles countAll sketchCycleRefs
  simp only [← foldl_count_flat, List.foldl_map]

theorem checkSketchHalfEdges_eq (s : Sketch) :
    checkSketchHalfEdges s = (countAll (sketchHalfEdgeRefs s)).multiples := by
  unfold checkSketchHalfEdges countAll sketchHalfEdgeRefs
  simp only [← foldl_count_flat, List.foldl_map]

theorem checkSolidRegions_eq (s : Solid) :
    checkSolidRegions s = (countAll (solidRegionRefs s)).multiples := by
  unfold checkSolidRegions countAll solidRegionRefs
  simp only [← foldl_count_flat, List.foldl_map]

theorem checkSolidCycles_eq (s : Solid) :
    checkSolidCycles s = (countAll (solidCycleRefs s)).multiples := by
  unfold checkSolidCycles countAll solidCycleRefs
  simp only [← foldl_count_flat, List.foldl_map]

theorem checkSolidHalfEdges_eq (s : Solid) :
    checkSolidHalfEdges s = (countAll (solidHalfEdgeRefs s)).multiples := by
  unfold checkSolidHalfEdges countAll solidHalfEdgeRefs
  simp only [← foldl_count_flat, List.foldl_map]

/-- C2 counterexample: for the sketch with a single region (id 0) whose
exterior cycle (id 5) also appears among its interiors, the
Cycle-in-Region check emits one violation for cycle 5 with parent list
`[0, 0]`, although cycle 5 is referenced by exactly one distinct parent —
refuting the claim that a child referenced by at most one distinct parent
yields no violation, and that the parent list contains precisely the
distinct referencing parents. -/
theorem multiple_references_counterexample :
    checkSketchCycles ⟨[⟨0, ⟨5, []⟩, [⟨5, []⟩]⟩]⟩ = [⟨5, [0, 0]⟩] ∧
      (parentsOf (sketchCycleRefs ⟨[⟨0, ⟨5, []⟩, [⟨5, []⟩]⟩]⟩) 5).dedup =
        [0] := by
  constructor <;> rfl

/-- C2 (amended): for each of the five exclusive-ownership checks, every
child with more than one reference — counted with multiplicity over the
inspected parent→child edges, so the same parent referencing the child k
times contributes k — yields exactly one violation record carrying that
child and the full traversal-order list of referencing parents with
multiplicity; a child with at most one reference yields no violation. In
particular, for n ≥ 2 distinct parents each referencing the child once,
the list has length exactly n and contains precisely those parents. -/
theorem multiple_references_amended (s : Sketch) (sol : Solid) (c : Nat) :
    ((checkSketchCycles s).filter (fun v => v.object == c) =
        if 2 ≤ (parentsOf (sketchCycleRefs s) c).length
        then [⟨c, parentsOf (sketchCycleRefs s) c⟩] else []) ∧
      ((checkSketchHalfEdges s).filter (fun v => v.object == c) =
        if 2 ≤ (parentsOf (sketchHalfEdgeRefs s) c).length
        then [⟨c, parentsOf (sketchHalfEdgeRefs s) c⟩] else []) ∧
      ((checkSolidRegions sol).filter (fun v => v.object == c) =
        if 2 ≤ (parentsOf (solidRegionRefs sol) c).length
        then [⟨c, parentsOf (solidRegionRefs sol) c⟩] else []) ∧
      ((checkSolidCycles sol).filter (fun v => v.object == c) =
        if 2 ≤ (parentsOf (solidCycleRefs sol) c).length
        then [⟨c, parentsOf (solidCycleRefs sol) c⟩] else []) ∧
      ((checkSolidHalfEdges sol).filter (fun v => v.object == c) =
        if 2 ≤ (parentsOf (solidHalfEdgeRefs sol) c).length
        then [⟨c, parentsOf (solidHalfEdgeRefs sol) c⟩] else []) := by
  refine ⟨?_, ?_, ?_, ?_, ?_⟩
  · rw [checkSketchCycles_eq]
    exact countAll_multiples_filter _ c
  · rw [checkSketchHalfEdges_eq]
    exact countAll_multiples_filter _ c
  · rw [checkSolidRegions_eq]
    exact countAll_multiples_filter _ c
  · rw [checkSolidCycles_eq]
    exact countAll_multiples_filter _ c
  · rw [checkSolidHalfEdges_eq]
    exact countAll_multiples_filter _ c

/-- Witness for `validation_state_spec` at a concrete state, event, key,
object and error list. -/
theorem validation_state_spec_witness :
    List.lookup 2
        ((ValidationFailed.mk ⟨2⟩ 20).evolve ⟨[(1, 10)]⟩).errors =
      some 20 ∧
      List.lookup 1 ((ValidationFailed.mk ⟨2⟩ 20).evolve ⟨[(1, 10)]⟩).errors =
        List.lookup 1 (Validation.mk [(1, 10)]).errors ∧
      processValidateObject ⟨[(1, 10)]⟩ ⟨3⟩ [] = ((), ⟨[(1, 10)]⟩) ∧
      (List.lookup 1
        (processValidateObject ⟨[(1, 10)]⟩ ⟨3⟩ [30]).2.errors).isSome := by
  have h := validation_state_spec ⟨[(1, 10)]⟩ ⟨⟨2⟩, 20⟩ 1 ⟨3⟩ [30]
  exact ⟨h.1, h.2.1 (by decide), h.2.2.1, h.2.2.2 (by decide)⟩

/-- C5 counterexample: two handles obtained from two independently created
storage cells (distinct cell ids 1 and 2) holding the same value 7 compare
as `Ordering.eq` under the derived ordering even though they are not equal
by identity — refuting the claim that ordering is determined solely by the
identity of the underlying storage cell and never by the stored value. -/
theorem handle_ordering_counterexample :
    Handle.cmp (Handle.ofStorage (Storage.new 1 (7 : Nat)))
        (Handle.ofStorage (Storage.new 2 (7 : Nat))) = Ordering.eq ∧
      Handle.ptrEq (Handle.ofStorage (Storage.new 1 (7 : Nat)))
        (Handle.ofStorage (Storage.new 2 (7 : Nat))) = false := by
  decide

/-- C5 (amended): Handle equality and hashing are determined solely by the
identity of the underlying storage cell, never by the stored value: a
clone of `h` is equal to `h` (and hashes equally), and handles from two
independently created storage cells are unequal even when the stored
values are equal. Ordering, by contrast, is value-based: the derived `Ord`
delegates to the stored values and ignores cell identity. -/
theorem handle_identity_semantics (T : Type) [Ord T] (h : Handle T)
    (v w : T) (id1 id2 : Nat) (hne : id1 ≠ id2) :
    (Handle.ptrEq h.clone h = true ∧ h.clone.hashVal = h.hashVal) ∧
      (Handle.ptrEq (Handle.ofStorage (Storage.new id1 v))
          (Handle.ofStorage (Storage.new id2 v)) = false ∧
        (Handle.ofStorage (Storage.new id1 v)).get =
          (Handle.ofStorage (Storage.new id2 v)).get) ∧
      Handle.cmp (Handle.ofStorage (Storage.new id1 v))
          (Handle.ofStorage (Storage.new id2 w)) = compare v w := by
  refine ⟨⟨?_, rfl⟩, ⟨?_, rfl⟩, rfl⟩
  · simp [Handle.ptrEq, Storage.ptrEq, Handle.clone, Storage.clone]
  · simp [Handle.ptrEq, Storage.ptrEq, Handle.ofStorage, Storage.clone,
      Storage.new, hne]

/-- Witness for `handle_identity_semantics` at a concrete handle and two
concrete distinct cell ids holding the same value. -/
theorem handle_identity_semantics_witness :
    (Handle.ptrEq (Handle.ofStorage (Storage.new 0 (42 : Nat))).clone
        (Handle.ofStorage (Storage.new 0 (42 : Nat))) = true ∧
      (Handle.ofStorage (Storage.new 0 (42 : Nat))).clone.hashVal =
        (Handle.ofStorage (Storage.new 0 (42 : Nat))).hashVal) ∧
      (Handle.ptrEq (Handle.ofStorage (Storage.new 1 (7 : Nat)))
          (Handle.ofStorage (Storage.new 2 (7 : Nat))) = false ∧
        (Handle.ofStorage (Storage.new 1 (7 : Nat))).get =
          (Handle.ofStorage (Storage.new 2 (7 : Nat))).get) ∧
      Handle.cmp (Handle.ofStorage (Storage.new 1 (7 : Nat)))
          (Handle.ofStorage (Storage.new 2 (7 : Nat))) =
        compare (7 : Nat) 7 :=
  handle_identity_semantics Nat (Handle.ofStorage (Storage.new 0 42)) 7 7
    1 2 (by decide)

/-- C6: querying the geometry of a surface for which no geometry is
defined halts the call immediately (panic, modelled as `Except.error`);
querying a curve or a vertex with no definition returns `none` rather than
failing, and a defined curve or vertex geometry is returned as `some`. -/
theorem geometry_lookup_spec (g : Geometry) (s c vx : Nat)
    (sg : SurfaceGeom) (cg : CurveGeom) (vg : VertexGeom) :
    (List.lookup s g.surface = none →
        g.of_surface s =
          Except.error "Expected geometry of surface to be defined") ∧
      (List.lookup s g.surface = some sg →
        g.of_surface s = Except.ok sg) ∧
      (List.lookup c g.curve = none → g.of_curve c = none) ∧
      (List.lookup c g.curve = some cg → g.of_curve c = some cg) ∧
      (List.lookup vx g.vertex = none → g.of_vertex vx = none) ∧
      (List.lookup vx g.vertex = some vg → g.of_vertex vx = some vg) := by
  refine ⟨?_, ?_, ?_, ?_, ?_, ?_⟩ <;> intro h <;>
    simp [Geometry.of_surface, Geometry.of_curve, Geometry.of_vertex, h]

/-- Witness for `geometry_lookup_spec` at a concrete geometry with one
defined surface, curve and vertex, queried at defined and undefined
handles. -/
theorem geometry_lookup_spec_witness :
    Geometry.of_surface
        ⟨[(4, ⟨[]⟩)], [(5, ⟨GlobalPath.xAxis, unitY⟩)], [(6, ⟨[]⟩)],
          0, 1, 2, 3⟩ 9 =
      Except.error "Expected geometry of surface to be defined" ∧
      Geometry.of_surface
          ⟨[(4, ⟨[]⟩)], [(5, ⟨GlobalPath.xAxis, unitY⟩)], [(6, ⟨[]⟩)],
            0, 1, 2, 3⟩ 5 =
        Except.ok ⟨GlobalPath.xAxis, unitY⟩ ∧
      Geometry.of_curve
          ⟨[(4, ⟨[]⟩)], [(5, ⟨GlobalPath.xAxis, unitY⟩)], [(6, ⟨[]⟩)],
            0, 1, 2, 3⟩ 9 = none ∧
      Geometry.of_curve
          ⟨[(4, ⟨[]⟩)], [(5, ⟨GlobalPath.xAxis, unitY⟩)], [(6, ⟨[]⟩)],
            0, 1, 2, 3⟩ 4 = some ⟨[]⟩ ∧
      Geometry.of_vertex
          ⟨[(4, ⟨[]⟩)], [(5, ⟨GlobalPath.xAxis, unitY⟩)], [(6, ⟨[]⟩)],
            0, 1, 2, 3⟩ 9 = none ∧
      Geometry.of_vertex
          ⟨[(4, ⟨[]⟩)], [(5, ⟨GlobalPath.xAxis, unitY⟩)], [(6, ⟨[]⟩)],
            0, 1, 2, 3⟩ 6 = some ⟨[]⟩ := by
  have h9 := geometry_lookup_spec
    ⟨[(4, ⟨[]⟩)], [(5, ⟨GlobalPath.xAxis, unitY⟩)], [(6, ⟨[]⟩)], 0, 1, 2, 3⟩
    9 9 9 ⟨GlobalPath.xAxis, unitY⟩ ⟨[]⟩ ⟨[]⟩
  have hd := geometry_lookup_spec
    ⟨[(4, ⟨[]⟩)], [(5, ⟨GlobalPath.xAxis, unitY⟩)], [(6, ⟨[]⟩)], 0, 1, 2, 3⟩
    5 4 6 ⟨GlobalPath.xAxis, unitY⟩ ⟨[]⟩ ⟨[]⟩
  exact ⟨h9.1 (by decide), hd.2.1 (by decide), h9.2.2.1 (by decide),
    hd.2.2.2.1 (by decide), h9.2.2.2.2.1 (by decide),
    hd.2.2.2.2.2 (by decide)⟩

/-- C9: defining geometry for the 2D-space surface handle always panics
(modelled as `Except.error`), even on an empty surface map, i.e. on the
first definition attempt; by contrast, a first definition for any other
not-yet-defined surface succeeds. -/
theorem space2d_define_spec (g : Geometry) (geom : SurfaceGeom) (s : Nat)
    (hs : s ≠ g.space_2d) (hnone : List.lookup s g.surface = none) :
    Geometry.define_surface_inner g g.space_2d geom =
        Except.error "Attempting to define geometry for 2D space" ∧
      (Geometry.define_surface_inner g s geom).isOk = true := by
  constructor
  · simp [Geometry.define_surface_inner]
  · simp [Geometry.define_surface_inner, hs, hnone, Except.isOk,
      Except.toBool]

/-- Witness for `space2d_define_spec` at the fresh geometry (empty surface
map), showing the very first definition attempt for the 2D-space handle
panics while a first definition for an ordinary surface succeeds. -/
theorem space2d_define_spec_witness :
    Geometry.define_surface_inner ⟨[], [], [], 0, 1, 2, 3⟩ 0
        ⟨GlobalPath.xAxis, unitY⟩ =
      Except.error "Attempting to define geometry for 2D space" ∧
      (Geometry.define_surface_inner ⟨[], [], [], 0, 1, 2, 3⟩ 9
        ⟨GlobalPath.xAxis, unitY⟩).isOk = true :=
  space2d_define_spec ⟨[], [], [], 0, 1, 2, 3⟩ ⟨GlobalPath.xAxis, unitY⟩ 9
    (by decide) rfl

/-- C8: `add_regions` returns a new sketch whose region list is exactly
the original sketch's regions (the same handles, in order) followed by the
given regions in order; the original sketch is untouched — the embedding
is pure, mirroring that the source constructs a fresh `Sketch` and mutates
no existing object. -/
theorem add_regions_spec (s : Sketch) (rs : List Region) :
    (s.add_regions rs).regions = s.regions ++ rs :=
  rfl

/-- C7: after construction, the three basis planes already have geometry
defined, so attempting to define geometry for any of them panics (modelled
as `Except.error`) instead of overwriting; defining geometry for any other
ordinary surface succeeds and records it. Distinctness of the four special
handles is guaranteed by the store in the source and is a hypothesis
here. -/
theorem basis_plane_spec (t : Topology)
    (h1 : t.xy_plane ≠ t.space_2d) (h2 : t.xz_plane ≠ t.space_2d)
    (h3 : t.yz_plane ≠ t.space_2d) (h4 : t.xz_plane ≠ t.xy_plane)
    (h5 : t.yz_plane ≠ t.xy_plane) (h6 : t.yz_plane ≠ t.xz_plane)
    (s : Nat) (geom : SurfaceGeom)
    (hs1 : s ≠ t.space_2d) (hs2 : s ≠ t.xy_plane)
    (hs3 : s ≠ t.xz_plane) (hs4 : s ≠ t.yz_plane) :
    (Geometry.new t).isOk = true ∧
      (∀ g, Geometry.new t = Except.ok g →
        ∀ geom2,
          g.define_surface_inner t.xy_plane geom2 =
              Except.error "Attempting to redefine basis plane." ∧
            g.define_surface_inner t.xz_plane geom2 =
              Except.error "Attempting to redefine basis plane." ∧
            g.define_surface_inner t.yz_plane geom2 =
              Except.error "Attempting to redefine basis plane.") ∧
      (∀ g, Geometry.new t = Except.ok g →
        (g.define_surface_inner s geom).isOk = true ∧
          ∀ g', g.define_surface_inner s geom = Except.ok g' →
            List.lookup s g'.surface = some geom) := by
  have hb4 : (t.xz_plane == t.xy_plane) = false := by simpa using h4
  have hb5 : (t.yz_plane == t.xy_plane) = false := by simpa using h5
  have hb6 : (t.yz_plane == t.xz_plane) = false := by simpa using h6
  have hbs2 : (s == t.xy_plane) = false := by simpa using hs2
  have hbs3 : (s == t.xz_plane) = false := by simpa using hs3
  have hbs4 : (s == t.yz_plane) = false := by simpa using hs4
  have hnew : Geometry.new t = Except.ok
      { curve := [],
        surface := [(t.xy_plane, ⟨GlobalPath.xAxis, unitY⟩),
          (t.xz_plane, ⟨GlobalPath.xAxis, unitZ⟩),
          (t.yz_plane, ⟨GlobalPath.yAxis, unitZ⟩)],
        vertex := [],
        space_2d := t.space_2d, xy_plane := t.xy_plane,
        xz_plane := t.xz_plane, yz_plane := t.yz_plane } := by
    simp [Geometry.new, Geometry.define_surface_inner, h1, h2, h3,
      mapInsert, List.lookup, hb4, hb5, hb6, Ne.symm h4, Ne.symm h5,
      Ne.symm h6, Except.bind]
  refine ⟨?_, ?_, ?_⟩
  · rw [hnew]
    rfl
  · intro g hg geom2
    rw [hnew] at hg
    injection hg with hg
    subst hg
    refine ⟨?_, ?_, ?_⟩ <;>
      simp [Geometry.define_surface_inner, h1, h2, h3, List.lookup, hb4,
        hb5, hb6]
  · intro g hg
    rw [hnew] at hg
    injection hg with hg
    subst hg
    constructor
    · simp [Geometry.define_surface_inner, hs1, List.lookup, hbs2, hbs3,
        hbs4, Except.isOk, Except.toBool]
    · intro g' hg'
      simp [Geometry.define_surface_inner, hs1, List.lookup, hbs2, hbs3,
        hbs4] at hg'
      rw [← hg']
      exact lookup_mapInsert_self _ s geom

/-- Witness for `basis_plane_spec` at concrete distinct special handles
and a concrete ordinary surface. -/
theorem basis_plane_spec_witness :
    (Geometry.new ⟨0, 1, 2, 3⟩).isOk = true :=
  (basis_plane_spec ⟨0, 1, 2, 3⟩ (by decide) (by decide) (by decide)
    (by decide) (by decide) (by decide) 9 ⟨GlobalPath.xAxis, unitY⟩
    (by decide) (by decide) (by decide) (by decide)).1

theorem chainNeighborsOf_eq_none (chain : List Pnt2) (v : Pnt2)
    (h : v ∉ chain) : chainNeighborsOf chain v = none := by
  unfold chainNeighborsOf
  have hidx : chain.findIdx? (fun p => p == v) = none := by
    apply List.findIdx?_eq_none_iff.mpr
    intro x hx
    have hxv : x ≠ v := fun he => h (he ▸ hx)
    simpa using hxv
  rw [hidx]

/-- C10: the polygon neighbor query asserts exactly one vertex chain: for
zero or at least two chains the call fails the assertion (modelled as
`Except.error`); with exactly one chain it returns the set of the given
vertex's neighbors in that chain, and the empty set when the vertex is not
in the chain. -/
theorem neighbors_of_spec (p : Polygon) (v : Pnt2) :
    (p.chains = [] →
        p.neighbors_of v =
          Except.error "assertion failed: chains.len() == 1") ∧
      (∀ c1 c2 rest, p.chains = c1 :: c2 :: rest →
        p.neighbors_of v =
          Except.error "assertion failed: chains.len() == 1") ∧
      (∀ chain, p.chains = [chain] → v ∉ chain →
        p.neighbors_of v = Except.ok (∅ : Finset Pnt2)) ∧
      (∀ chain a b, p.chains = [chain] →
        chainNeighborsOf chain v = some (a, b) →
        p.neighbors_of v = Except.ok ({a, b} : Finset Pnt2)) := by
  refine ⟨?_, ?_, ?_, ?_⟩
  · intro h
    simp [Polygon.neighbors_of, h]
  · intro c1 c2 rest h
    simp [Polygon.neighbors_of, h]
  · intro chain h hv
    simp [Polygon.neighbors_of, h, chainNeighborsOf_eq_none chain v hv]
  · intro chain a b h hn
    simp [Polygon.neighbors_of, h, hn]
    exact Finset.Insert.comm b a ∅

/-- Witness for `neighbors_of_spec` at concrete polygons: zero chains,
two chains, one chain queried at an absent vertex, and one chain queried
at a present vertex. -/
theorem neighbors_of_spec_witness :
    Polygon.neighbors_of ⟨[]⟩ ((0 : Int), (0 : Int)) =
        Except.error "assertion failed: chains.len() == 1" ∧
      Polygon.neighbors_of ⟨[[((0 : Int), (0 : Int))],
          [((1 : Int), (1 : Int))]]⟩ (0, 0) =
        Except.error "assertion failed: chains.len() == 1" ∧
      Polygon.neighbors_of ⟨[[((0 : Int), (0 : Int)), (1, 0), (0, 1)]]⟩
          (5, 5) =
        Except.ok (∅ : Finset Pnt2) ∧
      Polygon.neighbors_of ⟨[[((0 : Int), (0 : Int)), (1, 0), (0, 1)]]⟩
          (0, 0) =
        Except.ok ({((0 : Int), (1 : Int)), ((1 : Int), (0 : Int))} :
          Finset Pnt2) := by
  refine ⟨(neighbors_of_spec ⟨[]⟩ (0, 0)).1 rfl,
    (neighbors_of_spec _ (0, 0)).2.1 _ _ _ rfl,
    (neighbors_of_spec _ (5, 5)).2.2.1 _ rfl (by decide),
    (neighbors_of_spec _ (0, 0)).2.2.2 _ ((0 : Int), (1 : Int))
      ((1 : Int), (0 : Int)) rfl (by decide)⟩

end Fj
